import Mathlib

/-!
Verification of the ISS position collector server (`server.py`).

The server stores position records in a SQLite table `iss_positions`. We model
the table contents as a `List PositionRecord` in insertion order, SQL `TEXT`
values as `List Char`, SQLite's `TEXT` comparison (byte-wise `memcmp`, which for
the ASCII-only strings produced here coincides with lexicographic comparison of
the characters) as `textLt`, and `REAL` values as exact rationals `ℚ` (the float
arithmetic in the code is idealized as exact; the only arithmetic performed is
division by constants and rounding to two decimal places in `get_stats`).
-/

/-- Characters of a SQL `TEXT` value / Python string. -/
abbrev Chars := List Char

/-- One row of the `iss_positions` table (the `id` and `created_at` columns are
assigned by the store and never used by any queried property; they are omitted). -/
structure PositionRecord where
  latitude : ℚ
  longitude : ℚ
  altitude : ℚ
  timestamp : Chars
  day : Chars
deriving DecidableEq, Repr

/-- The table contents, in insertion (`id`) order. -/
abbrev Store := List PositionRecord

/-- SQLite `TEXT` comparison: strict "less than" by byte-wise comparison,
lexicographic on characters for the ASCII strings used here. -/
def textLt : Chars → Chars → Bool
  | [], [] => false
  | [], _ :: _ => true
  | _ :: _, [] => false
  | a :: as, b :: bs => if a < b then true else if b < a then false else textLt as bs

theorem textLt_irrefl (a : Chars) : textLt a a = false := by
  induction a with
  | nil => rfl
  | cons c cs ih => simp [textLt, ih]

theorem textLt_trans {a b c : Chars} (hab : textLt a b = true) (hbc : textLt b c = true) :
    textLt a c = true := by
  induction a generalizing b c with
  | nil =>
    cases b with
    | nil => simp [textLt] at hab
    | cons y ys =>
      cases c with
      | nil => simp [textLt] at hbc
      | cons z zs => rfl
  | cons x xs ih =>
    cases b with
    | nil => simp [textLt] at hab
    | cons y ys =>
      cases c with
      | nil => simp [textLt] at hbc
      | cons z zs =>
        simp only [textLt] at hab hbc ⊢
        by_cases hxy : x < y
        · by_cases hyz : y < z
          · simp [lt_trans hxy hyz]
          · simp only [if_pos hxy] at hab
            by_cases hzy : z < y
            · simp [if_neg hyz, if_pos hzy] at hbc
            · have hyzeq : y = z := le_antisymm (not_lt.mp hzy) (not_lt.mp hyz)
              subst hyzeq
              simp [hxy]
        · simp only [if_neg hxy] at hab
          by_cases hyx : y < x
          · simp [if_pos hyx] at hab
          · have hxyeq : x = y := le_antisymm (not_lt.mp hyx) (not_lt.mp hxy)
            subst hxyeq
            simp only [if_neg hxy, if_neg hyx] at hab
            by_cases hyz : x < z
            · simp [hyz]
            · by_cases hzy : z < x
              · simp [if_neg hyz, if_pos hzy] at hbc
              · simp only [if_neg hyz, if_neg hzy] at hbc ⊢
                exact ih hab hbc

theorem textLt_trichotomy (a b : Chars) :
    textLt a b = true ∨ a = b ∨ textLt b a = true := by
  induction a generalizing b with
  | nil =>
    cases b with
    | nil => exact Or.inr (Or.inl rfl)
    | cons y ys => exact Or.inl rfl
  | cons x xs ih =>
    cases b with
    | nil => exact Or.inr (Or.inr rfl)
    | cons y ys =>
      rcases lt_trichotomy x y with hxy | hxy | hxy
      · exact Or.inl (by simp [textLt, hxy])
      · subst hxy
        rcases ih ys with h | h | h
        · exact Or.inl (by simp [textLt, h])
        · exact Or.inr (Or.inl (by rw [h]))
        · exact Or.inr (Or.inr (by simp [textLt, h]))
      · exact Or.inr (Or.inr (by simp [textLt, hxy]))

theorem textLt_asymm {a b : Chars} (h : textLt a b = true) : textLt b a = false := by
  by_contra hba
  have hba' : textLt b a = true := by
    cases hh : textLt b a with
    | false => exact absurd hh hba
    | true => rfl
  have := textLt_trans h hba'
  rw [textLt_irrefl] at this
  exact Bool.false_ne_true this

/-- Non-strict `TEXT` comparison, as a proposition: `a ≤ b` iff `¬ b < a`. -/
def textLe (a b : Chars) : Prop := textLt b a = false

instance : DecidableRel textLe := fun a b => inferInstanceAs (Decidable (_ = _))

theorem textLe_total (a b : Chars) : textLe a b ∨ textLe b a := by
  rcases textLt_trichotomy a b with h | h | h
  · exact Or.inl (textLt_asymm h)
  · subst h; exact Or.inl (textLt_irrefl a)
  · exact Or.inr (textLt_asymm h)

theorem textLe_trans {a b c : Chars} (hab : textLe a b) (hbc : textLe b c) : textLe a c := by
  unfold textLe at *
  by_contra hca
  have hca' : textLt c a = true := by
    cases hh : textLt c a with
    | false => exact absurd hh hca
    | true => rfl
  rcases textLt_trichotomy a b with h | h | h
  · have h2 := textLt_trans hca' h
    rw [hbc] at h2
    exact Bool.false_ne_true h2
  · subst h
    rw [hbc] at hca'
    exact Bool.false_ne_true hca'
  · rw [hab] at h
    exact Bool.false_ne_true h

/-- Ascending-by-`timestamp` order on records: models `ORDER BY timestamp ASC`. -/
def tsLe (a b : PositionRecord) : Prop := textLe a.timestamp b.timestamp

/-- Descending-by-`timestamp` order on records: models `ORDER BY timestamp DESC`. -/
def tsGe (a b : PositionRecord) : Prop := textLe b.timestamp a.timestamp

instance : DecidableRel tsLe := fun a b => inferInstanceAs (Decidable (textLe _ _))

instance : DecidableRel tsGe := fun a b => inferInstanceAs (Decidable (textLe _ _))

instance : IsTotal PositionRecord tsLe := ⟨fun a b => textLe_total a.timestamp b.timestamp⟩

instance : IsTrans PositionRecord tsLe := ⟨fun _ _ _ => textLe_trans⟩

instance : IsTotal PositionRecord tsGe :=
  ⟨fun a b => (textLe_total b.timestamp a.timestamp).imp id id⟩

instance : IsTrans PositionRecord tsGe := ⟨fun _ _ _ hab hbc => textLe_trans hbc hab⟩

/-- `save_to_database` (server.py:54-67): `INSERT INTO iss_positions ...` appends
one row to the table. -/
def save_to_database (position : PositionRecord) (s : Store) : Store := s ++ [position]

/-- `cleanup_old_data` (server.py:69-81): `DELETE FROM iss_positions WHERE
timestamp < ?` with the cutoff text. The remaining table keeps, in order, exactly
the rows whose timestamp is not below the cutoff. -/
def cleanup_old_data (cutoff : Chars) (s : Store) : Store :=
  s.filter (fun r => ! textLt r.timestamp cutoff)

/-- `cursor.rowcount` after the DELETE in `cleanup_old_data` (server.py:75):
the number of rows whose timestamp is below the cutoff. -/
def cleanup_deleted_count (cutoff : Chars) (s : Store) : Nat :=
  s.countP (fun r => textLt r.timestamp cutoff)

/-- `get_record_count` (server.py:83-93): `SELECT COUNT(*) FROM iss_positions`. -/
def get_record_count (s : Store) : Nat := s.length

/-- `ORDER BY timestamp ASC` over the table rows. -/
def sortAsc (s : Store) : List PositionRecord := List.insertionSort tsLe s

/-- `ORDER BY timestamp DESC` over the table rows. -/
def sortDesc (s : Store) : List PositionRecord := List.insertionSort tsGe s

/-- `/api/last3days` handler `get_last_3_days` (server.py:124-136):
`SELECT latitude, longitude, altitude, timestamp, day FROM iss_positions
ORDER BY timestamp ASC` over the whole table. -/
def get_last_3_days (s : Store) : List PositionRecord := sortAsc s

/-- Possible responses of the `/api/current` handler. -/
inductive CurrentResponse where
  /-- 200 with the row's fields as JSON. -/
  | record (r : PositionRecord)
  /-- 404 with body `{'error': 'No data available'}`. -/
  | notFound
  /-- 500 with body `{'error': 'Unable to fetch position'}` (the `except` branch). -/
  | readFailure
deriving DecidableEq

/-- `/api/current` handler `get_current` (server.py:138-151): `SELECT ...
ORDER BY timestamp DESC LIMIT 1`; a `none` argument models the storage read
raising an exception (the `except` branch). -/
def get_current : Option Store → CurrentResponse
  | none => .readFailure
  | some s =>
    match (sortDesc s).head? with
    | some r => .record r
    | none => .notFound

theorem length_filter_not_add_countP {α : Type} (p : α → Bool) (l : List α) :
    (l.filter (fun a => ! p a)).length + l.countP p = l.length := by
  induction l with
  | nil => rfl
  | cons x xs ih =>
    by_cases h : p x <;> simp [List.filter_cons, List.countP_cons, h] <;> omega

/-- C4: after `cleanup_old_data` the record count equals the old count minus
exactly the number of rows whose timestamp is below the cutoff; a row survives
iff it was present and its timestamp is not below the cutoff (rows with
`timestamp ≥ cutoff` are all retained, unchanged and in order); running the
cleanup again removes nothing and its rowcount is 0 (idempotence). -/
theorem cleanup_old_data_spec (s : Store) (cutoff : Chars) :
    get_record_count (cleanup_old_data cutoff s)
      = get_record_count s - cleanup_deleted_count cutoff s
    ∧ (∀ r : PositionRecord,
        r ∈ cleanup_old_data cutoff s ↔ r ∈ s ∧ textLt r.timestamp cutoff = false)
    ∧ cleanup_old_data cutoff (cleanup_old_data cutoff s) = cleanup_old_data cutoff s
    ∧ cleanup_deleted_count cutoff (cleanup_old_data cutoff s) = 0 := by
  refine ⟨?_, ?_, ?_, ?_⟩
  · have h := length_filter_not_add_countP (fun r => textLt r.timestamp cutoff) s
    simp only [cleanup_old_data, get_record_count, cleanup_deleted_count]
    omega
  · intro r
    simp [cleanup_old_data, List.mem_filter]
  · simp [cleanup_old_data, List.filter_filter]
  · simp only [cleanup_deleted_count, cleanup_old_data]
    rw [List.countP_eq_length_filter, List.filter_filter]
    simp

/-- C6: on an empty store `/api/current` answers with the 404 NotFound response,
which is neither a record response (so never an empty or zeroed record) nor the
500 read-failure response; a storage read failure answers with the distinct 500
response. -/
theorem get_current_empty_notFound :
    get_current (some ([] : Store)) = CurrentResponse.notFound
    ∧ (∀ r : PositionRecord, get_current (some ([] : Store)) ≠ CurrentResponse.record r)
    ∧ CurrentResponse.notFound ≠ CurrentResponse.readFailure
    ∧ get_current none = CurrentResponse.readFailure := by
  refine ⟨rfl, ?_, ?_, rfl⟩
  · intro r h
    exact CurrentResponse.noConfusion h
  · intro h
    exact CurrentResponse.noConfusion h

/-- C8: `/api/last3days` returns the table rows sorted non-decreasing by
`timestamp`, whatever the insertion order: its output is `tsLe`-sorted and is a
permutation of the store contents. -/
theorem get_last_3_days_sorted (s : Store) :
    List.Sorted tsLe (get_last_3_days s) ∧ (get_last_3_days s).Perm s :=
  ⟨List.sorted_insertionSort tsLe s, List.perm_insertionSort tsLe s⟩

/-- Descending order on `TEXT` values: models `ORDER BY day DESC`. -/
def textGe (a b : Chars) : Prop := textLe b a

instance : DecidableRel textGe := fun a b => inferInstanceAs (Decidable (textLe _ _))

/-- `SELECT DISTINCT day FROM iss_positions ORDER BY day DESC` (server.py:192). -/
def distinct_days (s : Store) : List Chars :=
  List.insertionSort textGe (s.map (fun r => r.day)).dedup

/-- The JSON object built by the `/api/all-records` handler (server.py:196). -/
structure PagedResponse where
  records : List PositionRecord
  total : Nat
  page : Nat
  per_page : Nat
  total_pages : Nat
  available_days : List Chars
deriving DecidableEq

/-- The rows matching the optional `day` filter (server.py:183-186): with a
filter, `WHERE day = ?`; without, the whole table. -/
def filtered_rows (s : Store) (day_filter : Option Chars) : Store :=
  match day_filter with
  | some d => s.filter (fun r => decide (r.day = d))
  | none => s

/-- `/api/all-records` handler `get_all_records` (server.py:175-199): loads the
whole filtered result ordered by `timestamp DESC`, slices
`all_rows[(page-1)*per_page : (page-1)*per_page + per_page]`, and reports
`total`, `total_pages = (total + per_page - 1) // per_page` and the distinct
days. -/
def get_all_records (s : Store) (page per_page : Nat) (day_filter : Option Chars) :
    PagedResponse :=
  let all_rows := sortDesc (filtered_rows s day_filter)
  let total_records := all_rows.length
  let start := (page - 1) * per_page
  { records := (all_rows.drop start).take per_page
    total := total_records
    page := page
    per_page := per_page
    total_pages := (total_records + per_page - 1) / per_page
    available_days := distinct_days s }

theorem take_add' {α : Type} : ∀ (l : List α) (m n : Nat),
    l.take (m + n) = l.take m ++ (l.drop m).take n
  | [], _, _ => by simp
  | _ :: _, 0, _ => by simp
  | x :: xs, m + 1, n => by
    simp only [Nat.succ_add, List.take_succ_cons, List.drop_succ_cons, List.cons_append,
      take_add' xs m n]

theorem flatten_pages {α : Type} (p : Nat) :
    ∀ (n : Nat) (l : List α),
      ((List.range n).map (fun i => (l.drop (i * p)).take p)).flatten = l.take (n * p) := by
  intro n
  induction n with
  | zero => simp
  | succ n ih =>
    intro l
    rw [List.range_succ, List.map_append, List.flatten_append, ih]
    simp only [List.map_cons, List.map_nil, List.flatten_cons, List.flatten_nil,
      List.append_nil, Nat.succ_mul, take_add' l (n * p) p]

theorem le_ceil_mul {T p : Nat} (hp : 0 < p) : T ≤ (T + p - 1) / p * p := by
  have h := Nat.lt_mul_div_succ (T + p - 1) hp
  rw [Nat.mul_comm] at h
  rw [Nat.add_mul, Nat.one_mul] at h
  omega

theorem ceil_div_nat (T p : Nat) (hp : 0 < p) :
    (((T + p - 1) / p : Nat) : ℤ) = ⌈(T : ℚ) / (p : ℚ)⌉ := by
  have hp' : (0 : ℚ) < (p : ℚ) := by exact_mod_cast hp
  obtain ⟨q, hq⟩ : ∃ q, (T + p - 1) / p = q := ⟨_, rfl⟩
  have h1 : T ≤ q * p := hq ▸ le_ceil_mul hp
  have h2 : q * p < T + p := by
    have h3 := Nat.div_mul_le_self (T + p - 1) p
    rw [hq] at h3
    omega
  rw [hq]
  symm
  rw [Int.ceil_eq_iff]
  have hc1 : ((T : ℕ) : ℚ) ≤ ((q * p : ℕ) : ℚ) := by exact_mod_cast h1
  have hc2 : ((q * p : ℕ) : ℚ) < ((T + p : ℕ) : ℚ) := by exact_mod_cast h2
  push_cast at hc1 hc2
  constructor
  · rw [lt_div_iff₀ hp']
    push_cast
    nlinarith
  · rw [div_le_iff₀ hp']
    push_cast
    nlinarith

/-- C3: for every store, day filter, `page ≥ 1` and `per_page > 0`,
`/api/all-records` reports `total` equal to the filtered result size `T` and
`total_pages = ceil(T / per_page)`; concatenating pages `1..total_pages` in
order reproduces exactly the full filtered result sorted by descending
timestamp (so each filtered record appears exactly once across the pages); and
in particular over a filtered set of 25 records, `page=2, per_page=10` returns
the records ranked 11-20 of the descending order with `total = 25` and
`total_pages = 3`. -/
theorem get_all_records_pagination (s : Store) (day_filter : Option Chars)
    (page per_page : Nat) (hpage : 1 ≤ page) (hper : 0 < per_page) :
    (get_all_records s page per_page day_filter).total = (filtered_rows s day_filter).length
    ∧ ((get_all_records s page per_page day_filter).total_pages : ℤ)
        = ⌈((filtered_rows s day_filter).length : ℚ) / (per_page : ℚ)⌉
    ∧ ((List.range ((get_all_records s page per_page day_filter).total_pages)).map
          (fun i => (get_all_records s (i + 1) per_page day_filter).records)).flatten
        = sortDesc (filtered_rows s day_filter)
    ∧ List.Sorted tsGe (sortDesc (filtered_rows s day_filter))
    ∧ (sortDesc (filtered_rows s day_filter)).Perm (filtered_rows s day_filter)
    ∧ ((filtered_rows s day_filter).length = 25 →
        (get_all_records s 2 10 day_filter).records
            = ((sortDesc (filtered_rows s day_filter)).drop 10).take 10
        ∧ (get_all_records s 2 10 day_filter).total = 25
        ∧ (get_all_records s 2 10 day_filter).total_pages = 3) := by
  have hlen : (sortDesc (filtered_rows s day_filter)).length
      = (filtered_rows s day_filter).length :=
    (List.perm_insertionSort tsGe _).length_eq
  refine ⟨?_, ?_, ?_, List.sorted_insertionSort tsGe _, List.perm_insertionSort tsGe _, ?_⟩
  · simp [get_all_records, hlen]
  · simp only [get_all_records]
    rw [hlen]
    exact ceil_div_nat _ _ hper
  · simp only [get_all_records, Nat.add_sub_cancel]
    rw [flatten_pages]
    exact List.take_of_length_le (le_ceil_mul hper)
  · intro h25
    refine ⟨by norm_num [get_all_records], ?_, ?_⟩
    · simp only [get_all_records]
      rw [hlen]
      exact h25
    · simp only [get_all_records]
      rw [hlen, h25]

/-- C9: when `per_page > 0` and `page` strictly exceeds the number of available
pages, `/api/all-records` returns an empty `records` slice — not an error — with
`total`, `total_pages` and `available_days` computed exactly as for any valid
request. -/
theorem get_all_records_page_overflow (s : Store) (day_filter : Option Chars)
    (page per_page : Nat) (hper : 0 < per_page)
    (hpage : (get_all_records s page per_page day_filter).total_pages < page) :
    (get_all_records s page per_page day_filter).records = []
    ∧ (get_all_records s page per_page day_filter).total = (filtered_rows s day_filter).length
    ∧ ((get_all_records s page per_page day_filter).total_pages : ℤ)
        = ⌈((filtered_rows s day_filter).length : ℚ) / (per_page : ℚ)⌉
    ∧ (get_all_records s page per_page day_filter).available_days = distinct_days s := by
  have hlen : (sortDesc (filtered_rows s day_filter)).length
      = (filtered_rows s day_filter).length :=
    (List.perm_insertionSort tsGe _).length_eq
  refine ⟨?_, by simp [get_all_records, hlen], ?_, by simp [get_all_records]⟩
  · simp only [get_all_records] at hpage ⊢
    have hq := le_ceil_mul (T := (sortDesc (filtered_rows s day_filter)).length) hper
    have hle : (sortDesc (filtered_rows s day_filter)).length ≤ (page - 1) * per_page := by
      refine le_trans hq (Nat.mul_le_mul_right per_page ?_)
      omega
    rw [List.drop_eq_nil_of_le hle, List.take_nil]
  · simp only [get_all_records]
    rw [hlen]
    exact ceil_div_nat _ _ hper

/-- 25 sample rows with pairwise distinct timestamps, for evaluating the
pagination theorems on a concrete input. -/
def sampleStore : Store :=
  (List.range 25).map (fun i =>
    { latitude := 0, longitude := 0, altitude := 408,
      timestamp := [Char.ofNat (65 + i)], day := [] })

/-- Witness for C3 at a concrete input: 25 records, `page = 2`, `per_page = 10`. -/
theorem get_all_records_pagination_witness :
    1 ≤ 2 ∧ 0 < 10
    ∧ (get_all_records sampleStore 2 10 none).total = 25
    ∧ (get_all_records sampleStore 2 10 none).total_pages = 3 := by
  have h := get_all_records_pagination sampleStore none 2 10 (by decide) (by decide)
  refine ⟨by decide, by decide, ?_, (h.2.2.2.2.2 (by decide)).2.2⟩
  rw [h.1]
  decide

/-- Witness for C9 at a concrete input: 25 records, `page = 9`, `per_page = 10`. -/
theorem get_all_records_page_overflow_witness :
    0 < 10 ∧ (get_all_records sampleStore 9 10 none).total_pages < 9
    ∧ (get_all_records sampleStore 9 10 none).records = [] := by
  have h := get_all_records_page_overflow sampleStore none 9 10 (by decide) (by decide)
  exact ⟨by decide, by decide, h.1⟩

/-- Leap year in the proleptic Gregorian calendar used by Python `datetime`. -/
def isLeap (y : Nat) : Bool := (y % 4 == 0 && y % 100 != 0) || y % 400 == 0

def daysInYear (y : Nat) : Nat := if isLeap y then 366 else 365

/-- Splits a count of days since Jan 1 of year `y` into (year, day-of-year),
walking forward one year at a time. Structural fuel; `fuel ≥ day` suffices
because every recursive step consumes at least 365 days. -/
def yearAndDoy : Nat → Nat → Nat → Nat × Nat
  | 0, day, y => (y, day)
  | fuel + 1, day, y =>
    if day < daysInYear y then (y, day)
    else yearAndDoy fuel (day - daysInYear y) (y + 1)

def monthLengths (leap : Bool) : List Nat :=
  [31, if leap then 29 else 28, 31, 30, 31, 30, 31, 31, 30, 31, 30, 31]

/-- Splits a 0-based day-of-year into 1-based (month, day-of-month) given the
month lengths. -/
def monthAndDay : List Nat → Nat → Nat → Nat × Nat
  | [], doy, m => (m, doy + 1)
  | len :: rest, doy, m =>
    if doy < len then (m, doy + 1) else monthAndDay rest (doy - len) (m + 1)

def digitChar (n : Nat) : Char := Char.ofNat (48 + n)

/-- Zero-padded two-digit decimal rendering, as `strftime` codes `%m`, `%d`,
`%H`, `%M`, `%S` produce for the values below 100 that `datetime` guarantees. -/
def pad2 (n : Nat) : Chars := [digitChar (n / 10), digitChar (n % 10)]

/-- Zero-padded four-digit decimal rendering, as `strftime` code `%Y` produces
for the guarded year range 1000-9999. -/
def pad4 (n : Nat) : Chars :=
  [digitChar (n / 1000), digitChar (n / 100 % 10), digitChar (n / 10 % 10), digitChar (n % 10)]

/-- Days from 1000-01-01 to Jan 1 of year `y` in the proleptic Gregorian
calendar. -/
def daysFrom1000 (y : Nat) : Nat :=
  ((List.range (y - 1000)).map (fun i => daysInYear (1000 + i))).sum

/-- Seconds from 1000-01-01 00:00:00 UTC to the Unix epoch 1970-01-01. -/
def EPOCH_OFFSET : Int := 86400 * (daysFrom1000 1970 : Int)

/-- Models the composition `datetime.utcfromtimestamp(t).strftime(...)` used at
server.py:41,47-48, returning the pair (timestamp text, day text) for the two
format strings `%Y-%m-%d %H:%M:%S` and `%Y-%m-%d`. CPython raises (and
`fetch_iss_position` catches) `OverflowError` from `utcfromtimestamp` outside
the `datetime` year range 1-9999 and `ValueError` from `strftime` below year
1000 (per the `datetime` docs, years before 1000 cannot be formatted); both are
modelled as `none`, so the guarded year range is 1000-9999. -/
def utc_strftime (t : Int) : Option (Chars × Chars) :=
  let s := t + EPOCH_OFFSET
  if s < 0 then none
  else
    let days := s.toNat / 86400
    let sod := s.toNat % 86400
    let yd := yearAndDoy days days 1000
    if 9999 < yd.1 then none
    else
      let md := monthAndDay (monthLengths (isLeap yd.1)) yd.2 1
      let date := pad4 yd.1 ++ ['-'] ++ pad2 md.1 ++ ['-'] ++ pad2 md.2
      let time := pad2 (sod / 3600) ++ [':'] ++ pad2 (sod % 3600 / 60) ++ [':'] ++ pad2 (sod % 60)
      some (date ++ [' '] ++ time, date)

theorem utc_strftime_shape (t : Int) (ts d : Chars) (h : utc_strftime t = some (ts, d)) :
    d = ts.take 10 ∧ d.length = 10 := by
  unfold utc_strftime at h
  by_cases hs : t + EPOCH_OFFSET < 0
  · simp [hs] at h
  · simp only [if_neg hs] at h
    by_cases hy : 9999 < (yearAndDoy ((t + EPOCH_OFFSET).toNat / 86400)
        ((t + EPOCH_OFFSET).toNat / 86400) 1000).1
    · simp [hy] at h
    · simp only [if_neg hy, Option.some.injEq, Prod.mk.injEq] at h
      obtain ⟨hts, hd⟩ := h
      subst hts hd
      constructor
      · symm
        rw [List.append_assoc _ [' '] _]
        exact List.take_left' (by simp [pad4, pad2])
      · simp [pad4, pad2]

/-- The `data` field value `success` (server.py:40), as characters. -/
def successMsg : Chars := ['s', 'u', 'c', 'c', 'e', 's', 's']

/-- What `fetch_iss_position` can observe from the external call: `requests.get`
may raise (connection error or the 5-second timeout), `response.json()` may
raise (malformed or non-JSON body, which also covers error statuses whose body
is not the expected JSON), or a JSON object is obtained whose relevant fields
may each be missing or unparsable (`none`, standing for the `KeyError` or
`ValueError` the corresponding Python access would raise). `requests.get` does
not raise on a non-success HTTP status; such responses reach the payload check
and fail it (either no parsable JSON, or no `message` field equal to
`success`). -/
inductive FetchInput where
  | network_error
  | bad_json
  | payload (message : Option Chars) (timestamp : Option Int)
      (latitude : Option ℚ) (longitude : Option ℚ)

/-- The `try:` body of `fetch_iss_position` (server.py:37-49): `.error ()` is a
raised exception, `.ok none` the fall-through `return None` when
`data` has `message` different from `success`, `.ok (some record)` the
normalized return value with the fixed altitude 408.0. -/
def fetch_body (inp : FetchInput) : Except Unit (Option PositionRecord) :=
  match inp with
  | .network_error => .error ()
  | .bad_json => .error ()
  | .payload message timestamp latitude longitude =>
    match message with
    | none => .error ()
    | some m =>
      if m = successMsg then
        match timestamp with
        | none => .error ()
        | some t =>
          match utc_strftime t with
          | none => .error ()
          | some td =>
            match latitude, longitude with
            | some la, some lo =>
                .ok (some { latitude := la, longitude := lo, altitude := 408,
                            timestamp := td.1, day := td.2 })
            | _, _ => .error ()
      else .ok none

/-- `fetch_iss_position` (server.py:36-52): every exception raised in the `try:`
body is caught and turned into `return None`; the function itself never
raises. -/
def fetch_iss_position (inp : FetchInput) : Option PositionRecord :=
  match fetch_body inp with
  | .ok o => o
  | .error _ => none

/-- A fully successful, well-formed fetch outcome: a JSON object with `message`
equal to `success`, an integer `timestamp` whose UTC datetime is representable
and formattable (year 1000-9999), and parsable latitude and longitude. -/
def WellFormedSuccess : FetchInput → Prop
  | .payload message timestamp latitude longitude =>
      message = some successMsg
      ∧ (∃ t, timestamp = some t ∧ (utc_strftime t).isSome = true)
      ∧ latitude.isSome = true ∧ longitude.isSome = true
  | _ => False

/-- C7: on every failure outcome — network error, timeout, malformed payload,
missing fields, a source-reported non-success `message`, or an unrepresentable
timestamp — `fetch_iss_position` returns `none` (Absent) rather than raising
(in this model the function totally returns an `Option`, the catch-all
`except` translating every raise into `none`); only a fully successful,
well-formed outcome yields a record. -/
theorem fetch_failure_absent (inp : FetchInput) :
    (¬ WellFormedSuccess inp → fetch_iss_position inp = none)
    ∧ (WellFormedSuccess inp → ∃ r, fetch_iss_position inp = some r) := by
  constructor
  · intro h
    cases inp with
    | network_error => rfl
    | bad_json => rfl
    | payload message timestamp latitude longitude =>
      rcases message with _ | m
      · rfl
      · by_cases hm : m = successMsg
        · subst hm
          rcases timestamp with _ | t
          · simp [fetch_iss_position, fetch_body]
          · rcases hts : utc_strftime t with _ | td
            · simp [fetch_iss_position, fetch_body, hts]
            · rcases latitude with _ | la
              · simp [fetch_iss_position, fetch_body, hts]
              · rcases longitude with _ | lo
                · simp [fetch_iss_position, fetch_body, hts]
                · exact absurd ⟨rfl, ⟨t, rfl, by simp [hts]⟩, rfl, rfl⟩ h
        · simp [fetch_iss_position, fetch_body, hm]
  · intro h
    cases inp with
    | network_error => exact h.elim
    | bad_json => exact h.elim
    | payload message timestamp latitude longitude =>
      obtain ⟨hm, ⟨t, hts, hfmt⟩, hla, hlo⟩ := h
      subst hm
      subst hts
      obtain ⟨td, htd⟩ := Option.isSome_iff_exists.mp hfmt
      obtain ⟨la, hla'⟩ := Option.isSome_iff_exists.mp hla
      obtain ⟨lo, hlo'⟩ := Option.isSome_iff_exists.mp hlo
      subst hla'
      subst hlo'
      refine ⟨{ latitude := la, longitude := lo, altitude := 408,
                timestamp := td.1, day := td.2 }, ?_⟩
      simp [fetch_iss_position, fetch_body, htd]

set_option maxRecDepth 100000 in
/-- Witness for C7 at concrete inputs: a network error yields Absent, and a
well-formed success payload (epoch 0) yields a record. -/
theorem fetch_failure_absent_witness :
    fetch_iss_position FetchInput.network_error = none
    ∧ ∃ r, fetch_iss_position
        (FetchInput.payload (some successMsg) (some 0) (some 1) (some 2)) = some r := by
  refine ⟨(fetch_failure_absent FetchInput.network_error).1 (fun h => h.elim), ?_⟩
  apply (fetch_failure_absent
      (FetchInput.payload (some successMsg) (some 0) (some 1) (some 2))).2
  exact ⟨rfl, ⟨0, rfl, by decide⟩, rfl, rfl⟩

/-- `UPDATE_INTERVAL` (server.py:13): seconds between collector iterations. -/
def UPDATE_INTERVAL : Nat := 1

/-- State of the collector loop `background_update`: the table contents and the
local `cleanup_counter` (server.py:106). -/
structure LoopState where
  store : Store
  cleanup_counter : Nat
deriving DecidableEq

/-- `update_historical_data` (server.py:95-103): one fetch outcome; a record is
inserted via `save_to_database` (whose success path only logs a milestone every
3600 records, changing no state), `None` leaves the table untouched. -/
def update_historical_data (fetched : Option PositionRecord) (s : Store) : Store :=
  match fetched with
  | some position => save_to_database position s
  | none => s

/-- One iteration of the `while True` loop in `background_update`
(server.py:105-117): run `update_historical_data`, increment `cleanup_counter`
unconditionally, and when it has reached 3600 run `cleanup_old_data` (whose
cutoff, `utcnow() - 3 days` rendered as text, is taken as a parameter) and
reset the counter; then sleep for `UPDATE_INTERVAL`. -/
def background_iteration (fetched : Option PositionRecord) (cutoff : Chars)
    (st : LoopState) : LoopState :=
  let store1 := update_historical_data fetched st.store
  let c := st.cleanup_counter + 1
  if 3600 ≤ c then { store := cleanup_old_data cutoff store1, cleanup_counter := 0 }
  else { store := store1, cleanup_counter := c }

/-- A finite prefix of the collector loop: one `background_iteration` per step,
each step carrying that iteration's fetch outcome and retention cutoff. -/
def run_iterations (steps : List (FetchInput × Chars)) (st : LoopState) : LoopState :=
  steps.foldl (fun st step => background_iteration (fetch_iss_position step.1) step.2 st) st

/-- C2 counterexample: an iteration whose fetch returned Absent still increments
the retention iteration counter — starting from counter 0, an Absent iteration
leaves it at 1, not 0 as the claim states. -/
theorem counter_incremented_on_absent :
    fetch_iss_position FetchInput.network_error = none
    ∧ (background_iteration (fetch_iss_position FetchInput.network_error) []
        { store := [], cleanup_counter := 0 }).cleanup_counter = 1 := by
  exact ⟨rfl, rfl⟩

/-- C2 amended: on Absent no insert is attempted (the table is unchanged going
into the retention check), but the counter is incremented on every iteration —
it counts iterations, not successful inserts; on a record the row is appended;
in either case, when the incremented counter reaches the threshold 3600 the
Retention Manager runs on the post-insert table and the counter resets to 0,
and below the threshold the counter keeps its incremented value and no cleanup
runs. -/
theorem background_iteration_spec (fetched : Option PositionRecord) (cutoff : Chars)
    (st : LoopState) :
    (fetched = none → update_historical_data fetched st.store = st.store)
    ∧ (∀ p, fetched = some p → update_historical_data fetched st.store = st.store ++ [p])
    ∧ (st.cleanup_counter + 1 < 3600 →
        background_iteration fetched cutoff st
          = { store := update_historical_data fetched st.store,
              cleanup_counter := st.cleanup_counter + 1 })
    ∧ (3600 ≤ st.cleanup_counter + 1 →
        background_iteration fetched cutoff st
          = { store := cleanup_old_data cutoff (update_historical_data fetched st.store),
              cleanup_counter := 0 }) := by
  refine ⟨fun h => by simp [h, update_historical_data],
          fun p h => by simp [h, update_historical_data, save_to_database],
          fun h => ?_, fun h => ?_⟩
  · simp [background_iteration, Nat.not_le.mpr h]
  · simp [background_iteration, h]

/-- Witness for C2 (amended) at a concrete input: an Absent iteration below the
threshold leaves the empty store unchanged and moves the counter from 0 to 1. -/
theorem background_iteration_spec_witness :
    update_historical_data none ([] : Store) = ([] : Store)
    ∧ background_iteration none [] { store := [], cleanup_counter := 0 }
        = { store := [], cleanup_counter := 1 } := by
  have h := background_iteration_spec none [] { store := [], cleanup_counter := 0 }
  exact ⟨h.1 rfl, h.2.2.1 (by norm_num)⟩

theorem update_historical_data_mem {fetched : Option PositionRecord} {s : Store}
    {r : PositionRecord} (hr : r ∈ update_historical_data fetched s) :
    r ∈ s ∨ fetched = some r := by
  cases fetched with
  | none => exact Or.inl hr
  | some p =>
    simp only [update_historical_data, save_to_database, List.mem_append,
      List.mem_singleton] at hr
    rcases hr with h | h
    · exact Or.inl h
    · exact Or.inr (by rw [h])

theorem background_iteration_mem {fetched : Option PositionRecord} {cutoff : Chars}
    {st : LoopState} {r : PositionRecord}
    (hr : r ∈ (background_iteration fetched cutoff st).store) :
    r ∈ st.store ∨ fetched = some r := by
  unfold background_iteration at hr
  by_cases h : 3600 ≤ st.cleanup_counter + 1
  · simp only [if_pos h] at hr
    exact update_historical_data_mem (List.mem_of_mem_filter hr)
  · simp only [if_neg h] at hr
    exact update_historical_data_mem hr

/-- Any property of records that holds for everything the Source Adapter can
return, and initially, holds for every record in the store after any number of
collector iterations. -/
theorem run_iterations_invariant (P : PositionRecord → Prop)
    (hf : ∀ inp r, fetch_iss_position inp = some r → P r) :
    ∀ (steps : List (FetchInput × Chars)) (st : LoopState),
      (∀ r ∈ st.store, P r) → ∀ r ∈ (run_iterations steps st).store, P r := by
  intro steps
  induction steps with
  | nil => exact fun st hst => hst
  | cons step rest ih =>
    intro st hst
    apply ih
    intro r hr
    rcases background_iteration_mem hr with h | h
    · exact hst r h
    · exact hf step.1 r h

theorem fetch_record_shape (inp : FetchInput) (r : PositionRecord)
    (h : fetch_iss_position inp = some r) :
    r.altitude = 408 ∧ ∃ t, utc_strftime t = some (r.timestamp, r.day) := by
  cases inp with
  | network_error => exact absurd h (by simp [fetch_iss_position, fetch_body])
  | bad_json => exact absurd h (by simp [fetch_iss_position, fetch_body])
  | payload message timestamp latitude longitude =>
    rcases message with _ | m
    · exact absurd h (by simp [fetch_iss_position, fetch_body])
    · by_cases hm : m = successMsg
      · subst hm
        rcases timestamp with _ | t
        · exact absurd h (by simp [fetch_iss_position, fetch_body])
        · rcases hts : utc_strftime t with _ | td
          · exact absurd h (by simp [fetch_iss_position, fetch_body, hts])
          · rcases latitude with _ | la
            · exact absurd h (by simp [fetch_iss_position, fetch_body, hts])
            · rcases longitude with _ | lo
              · exact absurd h (by simp [fetch_iss_position, fetch_body, hts])
              · simp only [fetch_iss_position, fetch_body, hts, eq_self_iff_true, if_true,
                  Option.some.injEq] at h
                subst h
                exact ⟨rfl, t, by rw [hts]⟩
      · exact absurd h (by simp [fetch_iss_position, fetch_body, hm])

/-- C5: every record the collector ever inserts (any run of the loop from the
empty table, any sequence of fetch outcomes and cleanup cutoffs) has `day`
equal to exactly the first 10 characters of `timestamp` — both are derived
together from the same fetched UTC datetime, and no code path sets one without
the other. -/
theorem day_eq_take10_timestamp (steps : List (FetchInput × Chars)) (r : PositionRecord)
    (hr : r ∈ (run_iterations steps { store := [], cleanup_counter := 0 }).store) :
    r.day = r.timestamp.take 10 := by
  refine run_iterations_invariant (fun r => r.day = r.timestamp.take 10)
    (fun inp r h => ?_) steps _ (by simp) r hr
  obtain ⟨_, t, ht⟩ := fetch_record_shape inp r h
  exact (utc_strftime_shape t r.timestamp r.day ht).1

/-- C10: every record the collector ever inserts carries the constant altitude
408.0 — `fetch_iss_position` never reads an altitude from the payload. -/
theorem altitude_always_408 (steps : List (FetchInput × Chars)) (r : PositionRecord)
    (hr : r ∈ (run_iterations steps { store := [], cleanup_counter := 0 }).store) :
    r.altitude = 408 := by
  refine run_iterations_invariant (fun r => r.altitude = 408)
    (fun inp r h => (fetch_record_shape inp r h).1) steps _ (by simp) r hr

/-- One successful fetch at epoch 0 (1970-01-01 00:00:00 UTC), for evaluating
the loop theorems on a concrete run. -/
def sampleSteps : List (FetchInput × Chars) :=
  [(FetchInput.payload (some successMsg) (some 0) (some 1) (some 2), [])]

/-- The record that the `sampleSteps` run inserts. -/
def sampleFetchedRecord : PositionRecord :=
  { latitude := 1, longitude := 2, altitude := 408,
    timestamp := ['1', '9', '7', '0', '-', '0', '1', '-', '0', '1', ' ',
                  '0', '0', ':', '0', '0', ':', '0', '0'],
    day := ['1', '9', '7', '0', '-', '0', '1', '-', '0', '1'] }

set_option maxRecDepth 100000 in
/-- Witness for C5 at a concrete input: the record inserted by a successful
fetch at epoch 0 has day `1970-01-01`, the first 10 characters of its
timestamp. -/
theorem day_eq_take10_timestamp_witness :
    sampleFetchedRecord.day = sampleFetchedRecord.timestamp.take 10 :=
  day_eq_take10_timestamp sampleSteps sampleFetchedRecord (by decide)

set_option maxRecDepth 100000 in
/-- Witness for C10 at a concrete input: the record inserted by a successful
fetch at epoch 0 carries altitude 408. -/
theorem altitude_always_408_witness : sampleFetchedRecord.altitude = 408 :=
  altitude_always_408 sampleSteps sampleFetchedRecord (by decide)

/-- Python `round(x, 2)` idealized over exact rationals: round to the nearest
multiple of 1/100, ties to the even integer of hundredths (the float noise of
CPython on non-representable values is abstracted away). -/
def round2 (x : ℚ) : ℚ :=
  let f : ℤ := ⌊x * 100⌋
  let frac : ℚ := x * 100 - (f : ℚ)
  let n : ℤ :=
    if frac < 1 / 2 then f
    else if 1 / 2 < frac then f + 1
    else if f % 2 = 0 then f else f + 1
  (n : ℚ) / 100

/-- The JSON object of `/api/stats` (server.py:165), dropping the constant
fields `collection_rate`, `max_retention_days` and `records_per_table_page`. -/
structure StatsResponse where
  total_records : Nat
  total_hours : ℚ
  total_days : ℚ
  records_per_day : List (Chars × Nat)
deriving DecidableEq

/-- `SELECT day, COUNT(*) FROM iss_positions GROUP BY day ORDER BY day DESC`
(server.py:160-161): each distinct day with its row count, days descending. -/
def records_per_day (s : Store) : List (Chars × Nat) :=
  (distinct_days s).map (fun d => (d, s.countP (fun r => decide (r.day = d))))

/-- `/api/stats` handler `get_stats` (server.py:153-168): counts rows, groups
per day, and derives `total_hours = round(total_count / 3600, 2)` and
`total_days = round(total_count / 3600 / 24, 2)` — the division by 3600 turns
the count into hours because `UPDATE_INTERVAL` is 1 second per record. -/
def get_stats (s : Store) : StatsResponse :=
  let total_count := get_record_count s
  let total_hours : ℚ := (total_count : ℚ) / 3600
  let total_days : ℚ := total_hours / 24
  { total_records := total_count
    total_hours := round2 total_hours
    total_days := round2 total_days
    records_per_day := records_per_day s }

/-- A store holding exactly one row. -/
def singletonStore : Store :=
  [{ latitude := 0, longitude := 0, altitude := 408,
     timestamp := ['2', '0', '2', '4', '-', '0', '1', '-', '0', '1', ' ',
                   '0', '0', ':', '0', '0', ':', '0', '0'],
     day := ['2', '0', '2', '4', '-', '0', '1', '-', '0', '1'] }]

/-- C1 counterexample: with one stored record, `/api/stats` returns
`total_hours = round(1/3600, 2) = 0`, not exactly
`total_records x cadence / 3600 = 1/3600` — the handler rounds both derived
figures to two decimal places before returning them. -/
theorem get_stats_hours_not_exact :
    (get_stats singletonStore).total_hours
      ≠ ((get_record_count singletonStore : ℚ) * (UPDATE_INTERVAL : ℚ)) / 3600 := by
  have hc : (get_record_count singletonStore : ℚ) = 1 := by
    norm_num [get_record_count, singletonStore]
  have hu : (UPDATE_INTERVAL : ℚ) = 1 := by norm_num [UPDATE_INTERVAL]
  have hth : (get_stats singletonStore).total_hours = round2 ((1 : ℚ) / 3600) := by
    simp [get_stats, hc]
  have hfloor : ⌊(1 : ℚ) / 3600 * 100⌋ = 0 := by
    apply Int.floor_eq_iff.mpr
    norm_num
  have hr2 : round2 ((1 : ℚ) / 3600) = 0 := by
    norm_num [round2, hfloor]
  rw [hth, hr2, hc, hu]
  norm_num

/-- C1 amended: `/api/stats` figures are derived from the record count and the
configured cadence alone, not measured from the stored timestamps:
`total_records` is the row count, `total_hours` is
`round(total_records x UPDATE_INTERVAL / 3600, 2)` (the exact quotient rounded
to two decimals), `total_days` is `round(total_records x UPDATE_INTERVAL /
3600 / 24, 2)` (the unrounded hours divided by 24, then rounded); two stores
with equal counts get identical hour and day figures whatever their
timestamps. -/
theorem get_stats_spec (s s' : Store)
    (hcount : get_record_count s = get_record_count s') :
    (get_stats s).total_records = get_record_count s
    ∧ (get_stats s).total_hours
        = round2 (((get_record_count s : ℚ) * (UPDATE_INTERVAL : ℚ)) / 3600)
    ∧ (get_stats s).total_days
        = round2 (((get_record_count s : ℚ) * (UPDATE_INTERVAL : ℚ)) / 3600 / 24)
    ∧ (get_stats s).total_hours = (get_stats s').total_hours
    ∧ (get_stats s).total_days = (get_stats s').total_days := by
  refine ⟨rfl, by simp [get_stats, UPDATE_INTERVAL], by simp [get_stats, UPDATE_INTERVAL],
    ?_, ?_⟩ <;> simp [get_stats, hcount]

/-- Witness for C1 (amended) at a concrete input: the one-row store. -/
theorem get_stats_spec_witness :
    (get_stats singletonStore).total_records = get_record_count singletonStore
    ∧ (get_stats singletonStore).total_hours
        = round2 (((get_record_count singletonStore : ℚ) * (UPDATE_INTERVAL : ℚ)) / 3600) := by
  have h := get_stats_spec singletonStore singletonStore rfl
  exact ⟨h.1, h.2.1⟩
